import Mathlib

/-
  Verification development for the csgo trading repository.

  The embedding follows the Go sources directly:
  - CsgoBot: backend/services/trading/trading_service.go and
    backend/services/market/market_service.go of csgo2-trading-bot,
    plus the websocket hub of backend/api/middleware.go.
  - Trader: internal/services/price/price_service.go and
    internal/services/trading/trading_service.go of csgo-trader.

  float64 is modelled as Q (exact rational arithmetic); every concrete
  input used in a theorem below is chosen so that the corresponding
  float computation in Go is exact, hence the rational model agrees
  with the float one on those inputs.  Go int is modelled as Int,
  uint as Nat, time.Time instants as Nat tokens.
-/

namespace CsgoBot

/-- models.Order of csgo2-trading-bot (fields relevant to trading). -/
structure Order where
  id : Nat
  userId : Nat
  itemId : Nat
  otype : String
  status : String
  price : Rat
  quantity : Int
  platform : String
  executedAt : Option Nat
  failedReason : String
deriving DecidableEq, Repr

/-- models.Inventory of csgo2-trading-bot (fields relevant to trading). -/
structure Inventory where
  userId : Nat
  itemId : Nat
  quantity : Int
  buyPrice : Rat
  platform : String
  tradable : Bool
  locked : Bool
deriving DecidableEq, Repr

/-- models.Transaction of csgo2-trading-bot (fields relevant to trading). -/
structure Transaction where
  userId : Nat
  orderId : Nat
  ttype : String
  amount : Rat
  fee : Rat
  profit : Rat
  platform : String
deriving DecidableEq, Repr

/-- The persistent state touched by the trading service: the orders,
inventories and transactions tables. -/
structure DB where
  orders : List Order
  inventories : List Inventory
  transactions : List Transaction
deriving DecidableEq, Repr

/-- checkUserBalance: the source is a stub that always reports sufficient
balance (payment integration is a comment in the source). -/
def checkUserBalance (_userID : Nat) (_amount : Rat) : Bool :=
  true

/-- checkInventory: SQL count of inventory rows with the given user and item,
quantity at least the requested one and locked = false; true iff count > 0. -/
def checkInventory (db : DB) (userID itemID : Nat) (quantity : Int) : Bool :=
  db.inventories.any fun i =>
    decide (i.userId = userID) && decide (i.itemId = itemID) &&
    decide (quantity ≤ i.quantity) && decide (i.locked = false)

/-- lockInventory: UPDATE inventories SET locked = true for every row of the
given user and item; the quantity argument is ignored and the update always
succeeds. -/
def lockInventory (db : DB) (userID itemID : Nat) : DB :=
  { db with inventories := db.inventories.map fun i =>
      if i.userId = userID ∧ i.itemId = itemID then { i with locked := true } else i }

/-- unlockInventory: UPDATE inventories SET locked = false for every row of
the given user and item. -/
def unlockInventory (db : DB) (userID itemID : Nat) : DB :=
  { db with inventories := db.inventories.map fun i =>
      if i.userId = userID ∧ i.itemId = itemID then { i with locked := false } else i }

/-- addToInventory: insert one inventory row for the order, quantity and
price taken from the order, tradable true, locked at the zero value false. -/
def addToInventory (db : DB) (o : Order) : DB :=
  { db with inventories := db.inventories ++
      [{ userId := o.userId, itemId := o.itemId, quantity := o.quantity,
         buyPrice := o.price, platform := o.platform, tradable := true, locked := false }] }

/-- removeFromInventory: DELETE FROM inventories WHERE user_id and item_id
match the order; every row of the pair is removed, the order quantity is
ignored. -/
def removeFromInventory (db : DB) (o : Order) : DB :=
  { db with inventories := db.inventories.filter fun i =>
      ¬ (i.userId = o.userId ∧ i.itemId = o.itemId) }

/-- The buy_price lookup inside recordTransaction: rows matching the user
and item are scanned in turn into a float64 destination, so the last
matching row wins and the destination keeps its zero value 0 when no row
matches. -/
def scanBuyPrice (db : DB) (userID itemID : Nat) : Rat :=
  db.inventories.foldl
    (fun acc i => if i.userId = userID ∧ i.itemId = itemID then i.buyPrice else acc) 0

/-- recordTransaction: amount = price times quantity, fee = amount times
0.025, and for sell orders profit = (price - buy_price) times quantity minus
fee, where buy_price is looked up in the inventories table at call time. -/
def recordTransaction (db : DB) (o : Order) : DB :=
  let amount : Rat := o.price * (o.quantity : Rat)
  let fee : Rat := amount * (25 / 1000)
  let profit : Rat :=
    if o.otype = "sell" then
      (o.price - scanBuyPrice db o.userId o.itemId) * (o.quantity : Rat) - fee
    else 0
  { db with transactions := db.transactions ++
      [{ userId := o.userId, orderId := o.id, ttype := o.otype, amount := amount,
         fee := fee, profit := profit, platform := o.platform }] }

/-- db.Save on an order: the row with the same primary key is replaced by
the full in-memory record, whatever the stored row held. -/
def saveOrder (db : DB) (o : Order) : DB :=
  { db with orders := db.orders.map fun x => if x.id = o.id then o else x }

/-- CreateBuyOrder: the stub balance check always passes, no validation of
price or quantity happens, and the order is persisted as pending. -/
def CreateBuyOrder (db : DB) (userID itemID : Nat) (price : Rat) (quantity : Int)
    (platform : String) : DB × Except String Order :=
  if checkUserBalance userID (price * (quantity : Rat)) then
    let order : Order :=
      { id := db.orders.length + 1, userId := userID, itemId := itemID, otype := "buy",
        status := "pending", price := price, quantity := quantity, platform := platform,
        executedAt := none, failedReason := "" }
    ({ db with orders := db.orders ++ [order] }, Except.ok order)
  else
    (db, Except.error "insufficient balance")

/-- CreateSellOrder: checkInventory gates creation with a single
"insufficient inventory" error; on success the whole (user, item) inventory
is locked and the order is persisted as pending.  No validation of price or
quantity happens. -/
def CreateSellOrder (db : DB) (userID itemID : Nat) (price : Rat) (quantity : Int)
    (platform : String) : DB × Except String Order :=
  if checkInventory db userID itemID quantity then
    let db1 := lockInventory db userID itemID
    let order : Order :=
      { id := db1.orders.length + 1, userId := userID, itemId := itemID, otype := "sell",
        status := "pending", price := price, quantity := quantity, platform := platform,
        executedAt := none, failedReason := "" }
    ({ db1 with orders := db1.orders ++ [order] }, Except.ok order)
  else
    (db, Except.error "insufficient inventory")

/-- CancelOrder: look the order up by primary key, refuse when the caller
does not own it or it is not pending, otherwise unlock the inventory for
sell orders and save the order as cancelled. -/
def CancelOrder (db : DB) (orderID userID : Nat) : DB × Except String Unit :=
  match db.orders.find? (fun o => o.id == orderID) with
  | none => (db, Except.error "record not found")
  | some order =>
    if order.userId ≠ userID then
      (db, Except.error "unauthorized")
    else if order.status ≠ "pending" then
      (db, Except.error "order cannot be cancelled")
    else
      let db1 :=
        if order.otype = "sell" then unlockInventory db order.userId order.itemId else db
      (saveOrder db1 { order with status := "cancelled" }, Except.ok ())

/-- The platform switch shared by executeBuyOrder and executeSellOrder: the
buff, youpin and steam execution stubs all return nil, and when a platform
flag is disabled err is simply never assigned, so every supported platform
yields success and only an unknown platform yields an error. -/
def venueResult (platform : String) : Option String :=
  if platform = "buff" ∨ platform = "youpin" ∨ platform = "steam" then none
  else some "unsupported platform"

/-- executeSellOrder: run the platform switch on the in-memory order
snapshot; on error mark failed and unlock the inventory, on success mark
completed, set executedAt, remove the inventory rows, record the
transaction, and finally save the snapshot over the stored row.  The stored
status is never consulted. -/
def executeSellOrder (db : DB) (order : Order) (now : Nat) : DB :=
  match venueResult order.platform with
  | some e =>
    let order1 := { order with status := "failed", failedReason := e }
    let db1 := unlockInventory db order.userId order.itemId
    saveOrder db1 order1
  | none =>
    let order1 := { order with status := "completed", executedAt := some now }
    let db1 := removeFromInventory db order1
    let db2 := recordTransaction db1 order1
    saveOrder db2 order1

/-- executeBuyOrder: like executeSellOrder but crediting the inventory on
success and touching no inventory on failure. -/
def executeBuyOrder (db : DB) (order : Order) (now : Nat) : DB :=
  match venueResult order.platform with
  | some e =>
    saveOrder db { order with status := "failed", failedReason := e }
  | none =>
    let order1 := { order with status := "completed", executedAt := some now }
    let db1 := addToInventory db order1
    let db2 := recordTransaction db1 order1
    saveOrder db2 order1

end CsgoBot

namespace CsgoBot.Market

/-- calculateAverage of market_service.go: sum divided by length, 0 when
the length is 0. -/
def calculateAverage (prices : List Rat) : Rat :=
  if prices.length = 0 then 0
  else (prices.foldl (· + ·) 0) / (prices.length : Rat)

/-- calculateStdDev of market_service.go, translated literally: the sum of
squared deviations from the average divided by the length.  The source
never takes a square root. -/
def calculateStdDev (prices : List Rat) : Rat :=
  if prices.length = 0 then 0
  else
    let avg := calculateAverage prices
    (prices.foldl (fun s p => s + (p - avg) * (p - avg)) 0) / (prices.length : Rat)

/-- The period-to-period returns computed inside calculateVolatility:
entry i - 1 is (prices[i] - prices[i-1]) / prices[i-1]. -/
def periodReturns : List Rat → List Rat
  | [] => []
  | [_] => []
  | a :: b :: rest => (b - a) / a :: periodReturns (b :: rest)

/-- calculateVolatility of market_service.go: calculateStdDev applied to
the period returns, 0 when fewer than two samples exist. -/
def calculateVolatility (prices : List Rat) : Rat :=
  if prices.length < 2 then 0
  else calculateStdDev (periodReturns prices)

/-- Modelled from the spec wording of C7: the mean of the series. -/
def specMean (l : List Rat) : Rat :=
  l.sum / (l.length : Rat)

/-- Modelled from the spec wording of C7: the mean of squared deviations
from the mean, whose square root is the population standard deviation. -/
def specMeanSqDev (l : List Rat) : Rat :=
  ((l.map fun p => (p - specMean l) ^ 2).sum) / (l.length : Rat)

end CsgoBot.Market

namespace CsgoBot.Hub

/-- One connected websocket client of the hub: its identity, the contents
of its buffered outbound send channel, and that channel capacity (256 at
connection time). -/
structure Client where
  id : Nat
  send : List String
  cap : Nat
deriving DecidableEq, Repr

/-- The broadcast case of Hub.Run: every connected client is visited once;
a select with a default clause enqueues the message when the send buffer
has room and otherwise closes the channel and deletes the client from the
connected set.  The first component collects the clients that stay
connected (message enqueued), the second the clients that were dropped and
whose channel was closed. -/
def runBroadcast (m : String) : List Client → List Client × List Client
  | [] => ([], [])
  | c :: rest =>
    let r := runBroadcast m rest
    if c.send.length < c.cap then
      ({ c with send := c.send ++ [m] } :: r.1, r.2)
    else
      (r.1, c :: r.2)

end CsgoBot.Hub

namespace Trader

/-- models.Price of csgo-trader: one price observation row. -/
structure Price where
  itemId : Nat
  platform : String
  price : Rat
  volume : Int
  timestamp : Nat
deriving DecidableEq, Repr

/-- SavePrice of price_service.go: a bare db.Create, an unconditional
append with no validation and no deduplication. -/
def SavePrice (db : List Price) (p : Price) : List Price :=
  db ++ [p]

/-- Two price rows share the identifying (item, venue, observedAt) triple. -/
def sameKey (p q : Price) : Bool :=
  q.itemId == p.itemId && q.platform == p.platform && q.timestamp == p.timestamp

/-- ArbitrageOpportunity of price_service.go (the item field is dropped:
the scan below is the per-item inner double loop). -/
structure ArbitrageOpportunity where
  buyPlatform : String
  sellPlatform : String
  buyPrice : Rat
  sellPrice : Rat
  profit : Rat
  profitPercent : Rat
deriving DecidableEq, Repr

/-- The inner double loop of GetArbitrageOpportunities over the latest
per-venue prices of one item: for every ordered pair of distinct venues
with a strictly cheaper buy side, profit and profitPercent are computed and
the opportunity is kept when profitPercent reaches minProfitPercent. -/
def arbitragePairs (prices : List (String × Rat)) (minProfitPercent : Rat) :
    List ArbitrageOpportunity :=
  prices.flatMap fun p1 => prices.filterMap fun p2 =>
    if p1.1 ≠ p2.1 ∧ p1.2 < p2.2 ∧ minProfitPercent ≤ (p2.2 - p1.2) / p1.2 * 100 then
      some { buyPlatform := p1.1, sellPlatform := p2.1, buyPrice := p1.2,
             sellPrice := p2.2, profit := p2.2 - p1.2,
             profitPercent := (p2.2 - p1.2) / p1.2 * 100 }
    else none

/-- models.Strategy of csgo-trader (the fields analyzePrices reads). -/
structure Strategy where
  itemId : Nat
  buyPrice : Rat
  sellPrice : Rat
deriving DecidableEq, Repr

/-- TradeSignal of trading_service.go (the diagnostic Reason string is
omitted from the model). -/
structure TradeSignal where
  itemId : Nat
  platform : String
  action : String
  price : Rat
  confidence : Rat
deriving DecidableEq, Repr

/-- The running minimum and maximum of the price scan in analyzePrices,
with the platforms where they were found. -/
structure ScanState where
  minPrice : Rat
  minPlatform : String
  maxPrice : Rat
  maxPlatform : String
deriving DecidableEq, Repr

/-- One iteration of the analyzePrices scan: a strictly smaller price
replaces the minimum, a strictly larger one the maximum.  The source
performs the two updates in sequence, but the minimum update never touches
the maximum fields read by the second comparison, so the four fields are
independent. -/
def scanStep (st : ScanState) (pp : String × Rat) : ScanState :=
  { minPrice := if pp.2 < st.minPrice then pp.2 else st.minPrice,
    minPlatform := if pp.2 < st.minPrice then pp.1 else st.minPlatform,
    maxPrice := if st.maxPrice < pp.2 then pp.2 else st.maxPrice,
    maxPlatform := if st.maxPrice < pp.2 then pp.1 else st.maxPlatform }

/-- The full scan of analyzePrices, started from the sentinels 999999 and 0. -/
def scanPrices (prices : List (String × Rat)) : ScanState :=
  prices.foldl scanStep { minPrice := 999999, minPlatform := "", maxPrice := 0, maxPlatform := "" }

/-- analyzePrices of trading_service.go: after the min/max scan, signals
are generated only when the difference exceeds 5.0 in absolute terms and
10 percent of the minimum; a buy signal at the minimum-price platform when
it is at most the strategy buy threshold, then a sell signal at the
maximum-price platform when it is at least the strategy sell threshold. -/
def analyzePrices (prices : List (String × Rat)) (strat : Strategy) : List TradeSignal :=
  let st := scanPrices prices
  let priceDiff := st.maxPrice - st.minPrice
  if 5 < priceDiff ∧ 1 / 10 < priceDiff / st.minPrice then
    (if st.minPrice ≤ strat.buyPrice then
      [{ itemId := strat.itemId, platform := st.minPlatform, action := "buy",
         price := st.minPrice, confidence := 8 / 10 }]
     else []) ++
    (if strat.sellPrice ≤ st.maxPrice then
      [{ itemId := strat.itemId, platform := st.maxPlatform, action := "sell",
         price := st.maxPrice, confidence := 8 / 10 }]
     else [])
  else []

/-- Modelled from the spec wording of C8: the minimum price of a series
(head seeded, so no sentinel is involved). -/
def specListMin : List Rat → Rat
  | [] => 0
  | a :: rest => rest.foldl min a

/-- Modelled from the spec wording of C8: the maximum price of a series. -/
def specListMax : List Rat → Rat
  | [] => 0
  | a :: rest => rest.foldl max a

end Trader

open CsgoBot CsgoBot.Market CsgoBot.Hub Trader

/-- A pending sell order: one unit of item 1 at price 80 on steam. -/
def sellOrder1 : Order :=
  { id := 1, userId := 1, itemId := 1, otype := "sell", status := "pending",
    price := 80, quantity := 1, platform := "steam", executedAt := none, failedReason := "" }

/-- The single inventory lot backing sellOrder1: one unit acquired at 50,
locked by the pending sell order. -/
def lockedLot : Inventory :=
  { userId := 1, itemId := 1, quantity := 1, buyPrice := 50, platform := "steam",
    tradable := true, locked := true }

/-- Database state right after CreateSellOrder persisted sellOrder1. -/
def sellDB : DB :=
  { orders := [sellOrder1], inventories := [lockedLot], transactions := [] }

/-- A database whose only (user 1, item 1) lot is big enough but locked. -/
def c2LockedDB : DB :=
  { orders := [],
    inventories := [{ userId := 1, itemId := 1, quantity := 5, buyPrice := 50,
                      platform := "steam", tradable := true, locked := true }],
    transactions := [] }

/-- The empty database. -/
def emptyDB : DB :=
  { orders := [], inventories := [], transactions := [] }

/-- A database with one unlocked lot of five units of item 1. -/
def c3InvDB : DB :=
  { orders := [],
    inventories := [{ userId := 1, itemId := 1, quantity := 5, buyPrice := 50,
                      platform := "steam", tradable := true, locked := false }],
    transactions := [] }

/-- C1: the claim says pending is the only non-terminal status and that
once an order is cancelled no later completion changes it or performs side
effects.  The code violates this: CancelOrder marks the pending sell order
cancelled and unlocks its lot, yet the asynchronous executeSellOrder never
re-reads the stored status, so it marks the very same order completed,
deletes the inventory and records a transaction after the cancellation. -/
theorem c1_cancel_then_complete_overwrites :
    (CancelOrder sellDB 1 1).2 = Except.ok () ∧
    (CancelOrder sellDB 1 1).1.orders.map Order.status = ["cancelled"] ∧
    (executeSellOrder (CancelOrder sellDB 1 1).1 sellOrder1 7).orders.map Order.status
      = ["completed"] ∧
    (executeSellOrder (CancelOrder sellDB 1 1).1 sellOrder1 7).transactions.length = 1 ∧
    (executeSellOrder (CancelOrder sellDB 1 1).1 sellOrder1 7).inventories = [] :=
  ⟨rfl, rfl, rfl, rfl, rfl⟩

/-- C2 counterexample: with a matching lot that is merely locked, sell-order
creation fails with the very same "insufficient inventory" error as when no
lot exists at all, so the code does not report a distinct AlreadyLocked
failure as the claim states. -/
theorem c2_counterexample :
    (CreateSellOrder c2LockedDB 1 1 10 1 "steam").2 = Except.error "insufficient inventory" ∧
    (CreateSellOrder emptyDB 1 1 10 1 "steam").2 = Except.error "insufficient inventory" :=
  ⟨rfl, rfl⟩

/-- C2 (amended): whenever no unlocked lot of the pair with sufficient
quantity exists - which covers both the no-record case and the
locked-record case - sell-order creation returns the single error
"insufficient inventory" to the caller and leaves the database unchanged,
so no pending order is persisted. -/
theorem c2_lock_failure_modes (db : DB) (u it : Nat) (p : Rat) (q : Int) (pf : String)
    (h : ¬ ∃ i ∈ db.inventories,
        i.userId = u ∧ i.itemId = it ∧ q ≤ i.quantity ∧ i.locked = false) :
    CreateSellOrder db u it p q pf = (db, Except.error "insufficient inventory") := by
  have hc : checkInventory db u it q = false := by
    by_contra hne
    rw [Bool.not_eq_false] at hne
    refine h ?_
    simpa [checkInventory, List.any_eq_true, and_assoc] using hne
  simp [CreateSellOrder, hc]

/-- C2 witness: the locked-lot database instantiates the amended claim. -/
theorem c2_lock_failure_modes_witness :
    CreateSellOrder c2LockedDB 1 1 10 1 "steam"
      = (c2LockedDB, Except.error "insufficient inventory") :=
  c2_lock_failure_modes c2LockedDB 1 1 10 1 "steam" (by decide)

/-- C3 counterexample: a buy order with price 0 and quantity 0 is accepted
and persisted as pending, refuting the claim that such inputs are rejected
synchronously with nothing persisted. -/
theorem c3_counterexample :
    ((CreateBuyOrder emptyDB 1 1 0 0 "steam").1.orders.map
        fun o => (o.status, o.price, o.quantity)) = [("pending", 0, 0)] ∧
    (CreateBuyOrder emptyDB 1 1 0 0 "steam").2 =
      Except.ok { id := 1, userId := 1, itemId := 1, otype := "buy", status := "pending",
                  price := 0, quantity := 0, platform := "steam", executedAt := none,
                  failedReason := "" } :=
  ⟨rfl, rfl⟩

/-- C3 (amended): order creation performs no validation of price or
quantity at all.  Buy-order creation persists a pending order with exactly
the given price and quantity for every input (the balance check is a stub
that always passes), and sell-order creation does so as well whenever the
inventory check passes, so persisted orders need not satisfy price > 0 or
quantity at least 1. -/
theorem c3_no_validation (db : DB) (u it : Nat) (p : Rat) (q : Int) (pf : String)
    (h : checkInventory db u it q = true) :
    (CreateBuyOrder db u it p q pf).1.orders = db.orders ++
      [{ id := db.orders.length + 1, userId := u, itemId := it, otype := "buy",
         status := "pending", price := p, quantity := q, platform := pf,
         executedAt := none, failedReason := "" }] ∧
    (CreateSellOrder db u it p q pf).1.orders = db.orders ++
      [{ id := db.orders.length + 1, userId := u, itemId := it, otype := "sell",
         status := "pending", price := p, quantity := q, platform := pf,
         executedAt := none, failedReason := "" }] := by
  constructor
  · rfl
  · simp [CreateSellOrder, h, lockInventory]

/-- C3 witness: with an unlocked lot of five units, both a buy and a sell
order with price -1 and quantity 0 are persisted as pending. -/
theorem c3_no_validation_witness :
    (CreateBuyOrder c3InvDB 1 1 (-1) 0 "steam").1.orders = c3InvDB.orders ++
      [{ id := c3InvDB.orders.length + 1, userId := 1, itemId := 1, otype := "buy",
         status := "pending", price := -1, quantity := 0, platform := "steam",
         executedAt := none, failedReason := "" }] ∧
    (CreateSellOrder c3InvDB 1 1 (-1) 0 "steam").1.orders = c3InvDB.orders ++
      [{ id := c3InvDB.orders.length + 1, userId := 1, itemId := 1, otype := "sell",
         status := "pending", price := -1, quantity := 0, platform := "steam",
         executedAt := none, failedReason := "" }] :=
  c3_no_validation c3InvDB 1 1 (-1) 0 "steam" (by decide)

/-- C4: on the sell-completion path the code removes the inventory rows
before recordTransaction looks up buy_price, so the lookup scans no row and
uses 0: the scenario of the claim - quantity 1, price 80, recorded buy
price 50 - records profit 78 instead of the claimed 28.  The second
conjunct shows recordTransaction alone, with the lot still present, does
yield 28, so the formula is right and the ordering is the slip. -/
theorem c4_profit_uses_deleted_inventory :
    ((executeSellOrder sellDB sellOrder1 9).transactions.map
        fun t => (t.amount, t.fee, t.profit)) = [(80, 2, 78)] ∧
    ((recordTransaction sellDB sellOrder1).transactions.map fun t => t.profit) = [28] := by
  constructor
  · norm_num [executeSellOrder, recordTransaction, removeFromInventory, scanBuyPrice,
      saveOrder, venueResult, sellDB, sellOrder1, lockedLot]
  · norm_num [recordTransaction, scanBuyPrice, sellDB, sellOrder1, lockedLot]

/-- A valid price observation. -/
def pricePoint1 : Trader.Price :=
  { itemId := 1, platform := "buff", price := 10, volume := 3, timestamp := 100 }

/-- An observation with negative price and negative volume. -/
def invalidPoint : Trader.Price :=
  { itemId := 2, platform := "steam", price := -5, volume := -2, timestamp := 101 }

/-- C5 counterexample: recording the same (item, venue, observedAt) point
twice leaves two history entries for the triple, not one, and a point with
price below 0 and volume below 0 is accepted and stored, refuting both the
idempotence and the rejection parts of the claim. -/
theorem c5_counterexample :
    ((SavePrice (SavePrice [] pricePoint1) pricePoint1).filter (sameKey pricePoint1)).length
      = 2 ∧
    SavePrice [] invalidPoint = [invalidPoint] := by
  decide

/-- C5 (amended): SavePrice is an unconditional append - it never rejects a
point and never deduplicates, so each recording grows the history by one
entry and the count of entries with the identifying triple always rises by
exactly one, duplicate or not. -/
theorem c5_record_always_appends (db : List Trader.Price) (p : Trader.Price) :
    SavePrice db p = db ++ [p] ∧
    ((SavePrice db p).filter (sameKey p)).length = (db.filter (sameKey p)).length + 1 := by
  refine ⟨rfl, ?_⟩
  have hp : sameKey p p = true := by simp [sameKey]
  simp [SavePrice, List.filter_append, hp]

/-- C6: arbitrage detection over the latest per-venue prices of an item
emits exactly one opportunity per ordered venue pair with a strictly
higher sell price whose profit percentage reaches the threshold, with
profit and profitPercent as claimed; with prices A 100 and B 112 the
threshold 10 yields exactly the single opportunity (buy A, sell B, profit
12, percent 12) and the threshold 15 yields none.  The positivity
hypothesis marks the domain on which the rational model of the float
division is exact. -/
theorem c6_arbitrage_detection :
    (∀ (prices : List (String × Rat)) (minP : Rat) (o : ArbitrageOpportunity),
      (∀ p ∈ prices, 0 < p.2) →
      (o ∈ arbitragePairs prices minP ↔
        ∃ p1 ∈ prices, ∃ p2 ∈ prices, p1.1 ≠ p2.1 ∧ p1.2 < p2.2 ∧
          minP ≤ (p2.2 - p1.2) / p1.2 * 100 ∧
          o = { buyPlatform := p1.1, sellPlatform := p2.1, buyPrice := p1.2,
                sellPrice := p2.2, profit := p2.2 - p1.2,
                profitPercent := (p2.2 - p1.2) / p1.2 * 100 })) ∧
    arbitragePairs [("A", 100), ("B", 112)] 10 =
      [{ buyPlatform := "A", sellPlatform := "B", buyPrice := 100, sellPrice := 112,
         profit := 12, profitPercent := 12 }] ∧
    arbitragePairs [("A", 100), ("B", 112)] 15 = [] := by
  refine ⟨?_, ?_, ?_⟩
  · intro prices minP o _hpos
    simp only [arbitragePairs, List.mem_flatMap, List.mem_filterMap]
    constructor
    · rintro ⟨p1, hp1, p2, hp2, hif⟩
      by_cases hc : p1.1 ≠ p2.1 ∧ p1.2 < p2.2 ∧ minP ≤ (p2.2 - p1.2) / p1.2 * 100
      · rw [if_pos hc] at hif
        obtain ⟨h1, h2, h3⟩ := hc
        exact ⟨p1, hp1, p2, hp2, h1, h2, h3, (Option.some.inj hif).symm⟩
      · rw [if_neg hc] at hif
        exact absurd hif (by simp)
    · rintro ⟨p1, hp1, p2, hp2, h1, h2, h3, rfl⟩
      exact ⟨p1, hp1, p2, hp2, by rw [if_pos ⟨h1, h2, h3⟩]⟩
  · norm_num [arbitragePairs, List.filterMap_cons]
    rfl
  · norm_num [arbitragePairs, List.filterMap_cons]

/-- C6 witness: the characterization applied to the concrete price map of
the claim produces the single claimed opportunity. -/
theorem c6_arbitrage_detection_witness :
    ({ buyPlatform := "A", sellPlatform := "B", buyPrice := 100, sellPrice := 112,
       profit := 12, profitPercent := 12 } : ArbitrageOpportunity) ∈
      arbitragePairs [("A", 100), ("B", 112)] 10 :=
  (c6_arbitrage_detection.1 [("A", 100), ("B", 112)] 10 _ (by norm_num)).mpr
    ⟨("A", 100), by norm_num, ("B", 112), by norm_num, by decide, by norm_num,
     by norm_num, by norm_num⟩

/-- C7: the claim says the analyzer standard deviation is the square root
of the mean of squared deviations and volatility the standard deviation of
period returns.  The code computes both without the square root: on the
series 0, 4 the mean of squared deviations is 4 and the code returns 4,
whose square 16 is not 4 - the value whose square is 4 is 2; on 1, 2, 6
the returns are 1 and 2, their mean squared deviation is 1/4 and the code
returns 1/4 instead of 1/2. -/
theorem c7_stddev_missing_sqrt :
    calculateStdDev [0, 4] = 4 ∧
    specMeanSqDev [0, 4] = 4 ∧
    ¬ (calculateStdDev [0, 4]) ^ 2 = specMeanSqDev [0, 4] ∧
    ((2 : Rat)) ^ 2 = specMeanSqDev [0, 4] ∧
    calculateVolatility [1, 2, 6] = 1 / 4 ∧
    specMeanSqDev (periodReturns [1, 2, 6]) = 1 / 4 ∧
    ¬ (calculateVolatility [1, 2, 6]) ^ 2 = specMeanSqDev (periodReturns [1, 2, 6]) ∧
    ((1 / 2 : Rat)) ^ 2 = specMeanSqDev (periodReturns [1, 2, 6]) := by
  norm_num [calculateStdDev, calculateVolatility, calculateAverage, specMeanSqDev,
    specMean, periodReturns]

lemma scanStep_minPrice (st : ScanState) (p : String × Rat) :
    (scanStep st p).minPrice = min st.minPrice p.2 := by
  simp only [scanStep]
  split_ifs with h
  · exact (min_eq_right h.le).symm
  · exact (min_eq_left (le_of_not_lt h)).symm

lemma scanStep_maxPrice (st : ScanState) (p : String × Rat) :
    (scanStep st p).maxPrice = max st.maxPrice p.2 := by
  simp only [scanStep]
  split_ifs with h
  · exact (max_eq_right h.le).symm
  · exact (max_eq_left (le_of_not_lt h)).symm

lemma scanStep_minPair (st : ScanState) (p : String × Rat) :
    ((scanStep st p).minPlatform, (scanStep st p).minPrice)
      = if p.2 < st.minPrice then (p.1, p.2) else (st.minPlatform, st.minPrice) := by
  simp only [scanStep]
  split_ifs with h <;> rfl

lemma scanStep_maxPair (st : ScanState) (p : String × Rat) :
    ((scanStep st p).maxPlatform, (scanStep st p).maxPrice)
      = if st.maxPrice < p.2 then (p.1, p.2) else (st.maxPlatform, st.maxPrice) := by
  simp only [scanStep]
  split_ifs with h <;> rfl

lemma foldl_scan_minPrice (ps : List (String × Rat)) (st : ScanState) :
    (ps.foldl scanStep st).minPrice = (ps.map Prod.snd).foldl min st.minPrice := by
  induction ps generalizing st with
  | nil => rfl
  | cons p rest ih =>
    rw [List.foldl_cons, ih, scanStep_minPrice, List.map_cons, List.foldl_cons]

lemma foldl_scan_maxPrice (ps : List (String × Rat)) (st : ScanState) :
    (ps.foldl scanStep st).maxPrice = (ps.map Prod.snd).foldl max st.maxPrice := by
  induction ps generalizing st with
  | nil => rfl
  | cons p rest ih =>
    rw [List.foldl_cons, ih, scanStep_maxPrice, List.map_cons, List.foldl_cons]

lemma foldl_scan_min_attain (ps : List (String × Rat)) (st : ScanState) :
    ((ps.foldl scanStep st).minPlatform, (ps.foldl scanStep st).minPrice)
        = (st.minPlatform, st.minPrice) ∨
      ((ps.foldl scanStep st).minPlatform, (ps.foldl scanStep st).minPrice) ∈ ps := by
  induction ps generalizing st with
  | nil => exact Or.inl rfl
  | cons p rest ih =>
    rw [List.foldl_cons]
    rcases ih (scanStep st p) with h | h
    · rw [h, scanStep_minPair]
      by_cases h1 : p.2 < st.minPrice
      · rw [if_pos h1]
        exact Or.inr (List.mem_cons_self _ _)
      · rw [if_neg h1]
        exact Or.inl rfl
    · exact Or.inr (List.mem_cons_of_mem _ h)

lemma foldl_scan_max_attain (ps : List (String × Rat)) (st : ScanState) :
    ((ps.foldl scanStep st).maxPlatform, (ps.foldl scanStep st).maxPrice)
        = (st.maxPlatform, st.maxPrice) ∨
      ((ps.foldl scanStep st).maxPlatform, (ps.foldl scanStep st).maxPrice) ∈ ps := by
  induction ps generalizing st with
  | nil => exact Or.inl rfl
  | cons p rest ih =>
    rw [List.foldl_cons]
    rcases ih (scanStep st p) with h | h
    · rw [h, scanStep_maxPair]
      by_cases h1 : st.maxPrice < p.2
      · rw [if_pos h1]
        exact Or.inr (List.mem_cons_self _ _)
      · rw [if_neg h1]
        exact Or.inl rfl
    · exact Or.inr (List.mem_cons_of_mem _ h)

lemma foldl_min_le_init (xs : List Rat) (a : Rat) : xs.foldl min a ≤ a := by
  induction xs generalizing a with
  | nil => exact le_refl a
  | cons x xs ih => exact le_trans (ih (min a x)) (min_le_left a x)

lemma init_le_foldl_max (xs : List Rat) (a : Rat) : a ≤ xs.foldl max a := by
  induction xs generalizing a with
  | nil => exact le_refl a
  | cons x xs ih => exact le_trans (le_max_left a x) (ih (max a x))

lemma ite_append_split {α : Type} (A B C : Prop) [Decidable A] [Decidable B] [Decidable C]
    (x y : List α) :
    (if A then (if B then x else []) ++ (if C then y else []) else []) =
    (if A ∧ B then x else []) ++ (if A ∧ C then y else []) := by
  by_cases hA : A <;> by_cases hB : B <;> by_cases hC : C <;> simp [hA, hB, hC]

lemma scanPrices_minPrice (p : String × Rat) (rest : List (String × Rat))
    (h : p.2 < 999999) :
    (scanPrices (p :: rest)).minPrice = specListMin ((p :: rest).map Prod.snd) := by
  rw [scanPrices, foldl_scan_minPrice, List.map_cons, List.foldl_cons,
    min_eq_right h.le, specListMin]

lemma scanPrices_maxPrice (p : String × Rat) (rest : List (String × Rat))
    (h : 0 < p.2) :
    (scanPrices (p :: rest)).maxPrice = specListMax ((p :: rest).map Prod.snd) := by
  rw [scanPrices, foldl_scan_maxPrice, List.map_cons, List.foldl_cons,
    max_eq_right h.le, specListMax]

/-- C8 counterexample: with venue prices a 10 and b 12 the relative spread
is 20 percent and both strategy thresholds are met (minimum 10 at most the
buy threshold 100, maximum 12 at least the sell threshold 11), so the
claim requires a buy and a sell signal; the code emits no signal at all
because the absolute difference 2 fails its additional 5.0 threshold,
which the claim says does not exist. -/
theorem c8_counterexample :
    analyzePrices [("a", 10), ("b", 12)]
      { itemId := 1, buyPrice := 100, sellPrice := 11 } = [] ∧
    (1 / 10 : Rat) < (12 - 10) / 10 ∧ (10 : Rat) ≤ 100 ∧ (11 : Rat) ≤ 12 := by
  refine ⟨?_, by norm_num, by norm_num, by norm_num⟩
  norm_num [analyzePrices, scanPrices, scanStep]

/-- C8 (amended): over positive venue prices below the 999999 sentinel, a
buy signal is emitted exactly when the minimum price is at most the buy
threshold, the spread exceeds 10 percent of the minimum AND the absolute
difference exceeds 5.0, and a sell signal exactly when the maximum price is
at least the sell threshold under the same two spread conditions; the buy
signal carries the minimum price and a venue attaining it, the sell signal
the maximum price and a venue attaining it. -/
theorem c8_arbitrage_signals (prices : List (String × Rat)) (strat : Strategy)
    (mn mx : Rat)
    (hmn : mn = specListMin (prices.map Prod.snd))
    (hmx : mx = specListMax (prices.map Prod.snd))
    (hpos : ∀ p ∈ prices, 0 < p.2 ∧ p.2 < 999999)
    (hne : prices ≠ []) :
    analyzePrices prices strat =
      (if (5 < mx - mn ∧ 1 / 10 < (mx - mn) / mn) ∧ mn ≤ strat.buyPrice then
        [{ itemId := strat.itemId, platform := (scanPrices prices).minPlatform,
           action := "buy", price := mn, confidence := 8 / 10 }]
      else []) ++
      (if (5 < mx - mn ∧ 1 / 10 < (mx - mn) / mn) ∧ strat.sellPrice ≤ mx then
        [{ itemId := strat.itemId, platform := (scanPrices prices).maxPlatform,
           action := "sell", price := mx, confidence := 8 / 10 }]
      else []) ∧
    ((scanPrices prices).minPlatform, mn) ∈ prices ∧
    ((scanPrices prices).maxPlatform, mx) ∈ prices := by
  obtain ⟨p, rest, rfl⟩ := List.exists_cons_of_ne_nil hne
  obtain ⟨hp0, hp9⟩ := hpos p (List.mem_cons_self p rest)
  have hmin : (scanPrices (p :: rest)).minPrice = mn := by
    rw [hmn, scanPrices_minPrice p rest hp9]
  have hmax : (scanPrices (p :: rest)).maxPrice = mx := by
    rw [hmx, scanPrices_maxPrice p rest hp0]
  have hmnle : mn ≤ p.2 := by
    rw [hmn, List.map_cons, specListMin]
    exact foldl_min_le_init _ _
  have hmxge : p.2 ≤ mx := by
    rw [hmx, List.map_cons, specListMax]
    exact init_le_foldl_max _ _
  have hminmem : ((scanPrices (p :: rest)).minPlatform, mn) ∈ p :: rest := by
    rcases foldl_scan_min_attain (p :: rest)
        { minPrice := 999999, minPlatform := "", maxPrice := 0, maxPlatform := "" } with h | h
    · have h2 : ((scanPrices (p :: rest)).minPlatform, (scanPrices (p :: rest)).minPrice)
          = ("", (999999 : Rat)) := h
      have h9 : mn = 999999 := by
        rw [← hmin]
        exact congrArg Prod.snd h2
      have hlt := lt_of_le_of_lt hmnle hp9
      rw [h9] at hlt
      exact absurd hlt (lt_irrefl _)
    · have h2 : ((scanPrices (p :: rest)).minPlatform, (scanPrices (p :: rest)).minPrice)
          ∈ p :: rest := h
      rw [hmin] at h2
      exact h2
  have hmaxmem : ((scanPrices (p :: rest)).maxPlatform, mx) ∈ p :: rest := by
    rcases foldl_scan_max_attain (p :: rest)
        { minPrice := 999999, minPlatform := "", maxPrice := 0, maxPlatform := "" } with h | h
    · have h2 : ((scanPrices (p :: rest)).maxPlatform, (scanPrices (p :: rest)).maxPrice)
          = ("", (0 : Rat)) := h
      have h0 : mx = 0 := by
        rw [← hmax]
        exact congrArg Prod.snd h2
      have hlt := lt_of_lt_of_le hp0 hmxge
      rw [h0] at hlt
      exact absurd hlt (lt_irrefl _)
    · have h2 : ((scanPrices (p :: rest)).maxPlatform, (scanPrices (p :: rest)).maxPrice)
          ∈ p :: rest := h
      rw [hmax] at h2
      exact h2
  refine ⟨?_, hminmem, hmaxmem⟩
  simp only [analyzePrices]
  rw [hmin, hmax]
  exact ite_append_split _ _ _ _ _

/-- C8 witness: prices a 10 and b 30 with thresholds 100 and 20 meet the
amended conditions (difference 20 exceeds 5.0 and 200 percent exceeds 10
percent), so both signals are emitted at the extreme venues. -/
theorem c8_arbitrage_signals_witness :
    analyzePrices [("a", 10), ("b", 30)]
        { itemId := 1, buyPrice := 100, sellPrice := 20 } =
      (if (5 < (30 : Rat) - 10 ∧ 1 / 10 < ((30 : Rat) - 10) / 10) ∧ (10 : Rat) ≤ 100 then
        [{ itemId := 1, platform := (scanPrices [("a", 10), ("b", 30)]).minPlatform,
           action := "buy", price := 10, confidence := 8 / 10 }]
      else []) ++
      (if (5 < (30 : Rat) - 10 ∧ 1 / 10 < ((30 : Rat) - 10) / 10) ∧ (20 : Rat) ≤ 30 then
        [{ itemId := 1, platform := (scanPrices [("a", 10), ("b", 30)]).maxPlatform,
           action := "sell", price := 30, confidence := 8 / 10 }]
      else []) ∧
    ((scanPrices [("a", 10), ("b", 30)]).minPlatform, (10 : Rat)) ∈ [("a", 10), ("b", 30)] ∧
    ((scanPrices [("a", 10), ("b", 30)]).maxPlatform, (30 : Rat)) ∈ [("a", 10), ("b", 30)] :=
  c8_arbitrage_signals [("a", 10), ("b", 30)] { itemId := 1, buyPrice := 100, sellPrice := 20 }
    10 30 (by norm_num [specListMin, List.foldl_cons, List.foldl_nil, min_def])
    (by norm_num [specListMax, List.foldl_cons, List.foldl_nil, max_def])
    (by norm_num) (by simp)

/-- C9: one broadcast visits every connected client exactly once; a client
whose bounded send buffer has room stays connected with the event appended
to its buffer, a client whose buffer is full is dropped from the connected
set with its channel closed, and each client is handled independently of
the others, so the publish always terminates and every other subscriber
still receives the event. -/
theorem c9_publish_nonblocking (m : String) (clients : List Client) :
    (runBroadcast m clients).1 =
      (clients.filter fun c => c.send.length < c.cap).map
        (fun c => { c with send := c.send ++ [m] }) ∧
    (runBroadcast m clients).2 = clients.filter fun c => ¬ c.send.length < c.cap := by
  induction clients with
  | nil => exact ⟨rfl, rfl⟩
  | cons c rest ih =>
    by_cases h : c.send.length < c.cap
    · simp [runBroadcast, h, ih.1, ih.2]
    · have h2 : c.cap ≤ c.send.length := Nat.le_of_not_lt h
      simp [runBroadcast, h, h2, ih.1, ih.2]

/-- A pending sell order of a single unit of item 1 for user 1. -/
def c10Order : Order :=
  { id := 3, userId := 1, itemId := 1, otype := "sell", status := "pending",
    price := 9, quantity := 1, platform := "steam", executedAt := none, failedReason := "" }

/-- Inventories holding eight units of item 1 for user 1 across two lots,
plus a lot of another user. -/
def c10DB : DB :=
  { orders := [c10Order],
    inventories :=
      [{ userId := 1, itemId := 1, quantity := 5, buyPrice := 4, platform := "steam",
         tradable := true, locked := true },
       { userId := 1, itemId := 1, quantity := 3, buyPrice := 6, platform := "buff",
         tradable := true, locked := true },
       { userId := 2, itemId := 1, quantity := 4, buyPrice := 5, platform := "steam",
         tradable := true, locked := false }],
    transactions := [] }

/-- C10: when the venue call of a sell order succeeds, the completion path
deletes every inventory row of the (owner, item) pair whatever its
quantity - even when the owner held strictly more units than the order
sold - while rows of other owners or items are untouched. -/
theorem c10_sell_completion_deletes_pair (db : DB) (o : Order) (now : Nat)
    (hok : venueResult o.platform = none) :
    (∀ i ∈ (executeSellOrder db o now).inventories,
        ¬ (i.userId = o.userId ∧ i.itemId = o.itemId)) ∧
    (∀ i ∈ db.inventories,
        ¬ (i.userId = o.userId ∧ i.itemId = o.itemId) →
        i ∈ (executeSellOrder db o now).inventories) := by
  constructor
  · intro i hi
    simp only [executeSellOrder, hok, saveOrder, recordTransaction, removeFromInventory,
      List.mem_filter, decide_eq_true_eq] at hi
    exact hi.2
  · intro i hi hno
    simp only [executeSellOrder, hok, saveOrder, recordTransaction, removeFromInventory,
      List.mem_filter, decide_eq_true_eq]
    exact ⟨hi, hno⟩

/-- C10 witness: completing a sale of one unit wipes both lots of user 1
holding eight units in total, while the lot of user 2 survives. -/
theorem c10_sell_completion_deletes_pair_witness :
    (∀ i ∈ (executeSellOrder c10DB c10Order 3).inventories,
        ¬ (i.userId = c10Order.userId ∧ i.itemId = c10Order.itemId)) ∧
    (∀ i ∈ c10DB.inventories,
        ¬ (i.userId = c10Order.userId ∧ i.itemId = c10Order.itemId) →
        i ∈ (executeSellOrder c10DB c10Order 3).inventories) :=
  c10_sell_completion_deletes_pair c10DB c10Order 3 rfl
